import Mathlib

/-!
Verification of the plane-sync reconciliation engine.

The definitions below are a shallow embedding of `SyncService` (the
reconciliation engine), of the conflict-detection helpers it uses, and of the
canonical issue model from `src/types/normalized.ts` / `src/types/index.ts`.
Provider back ends are modelled through an explicit operation record so that
single-run behaviour (call traces, partial failure) and two-run behaviour
(idempotence questions) can both be stated.

Timestamps (`createdAt` / `updatedAt`) are JavaScript date values obtained via
`new Date(s).getTime()`; the engine only ever compares them with `===` and `>`,
so they are embedded as natural numbers.  JavaScript `Set` objects built from
strings are embedded as deduplicated lists: `size` becomes `List.length` after
`List.dedup` and `has` becomes list membership, which is exactly the behaviour
the code relies on.
-/

namespace PlaneSync

/-- The five canonical state categories of `NormalizedStateCategory`. -/
inductive NormalizedStateCategory
  | backlog
  | todo
  | inProgress
  | ready
  | done
deriving DecidableEq, Repr

/-- Normalized issue state (`category` drives logic, `name` is the provider's
display name).  The optional `metadata` bag of the TypeScript interface is not
read by any code under verification and is omitted. -/
structure NormalizedState where
  category : NormalizedStateCategory
  name : String
  color : Option String := none
deriving DecidableEq, Repr

/-- Normalized label; only `name` is ever read by the engine. -/
structure NormalizedLabel where
  name : String
  color : Option String := none
  description : Option String := none
deriving DecidableEq, Repr

/-- The `metadata` bag of a normalized issue, restricted to the two keys the
engine reads and writes (`externalId`, `provider`). -/
structure IssueMetadata where
  externalId : Option String := none
  provider : Option String := none
deriving DecidableEq, Repr

/-- The canonical provider-agnostic issue representation. -/
structure NormalizedIssue where
  id : String
  title : String
  description : String
  state : NormalizedState
  labels : List NormalizedLabel
  assignees : List String
  createdAt : Nat
  updatedAt : Nat
  sourceProvider : String
  metadata : Option IssueMetadata := none
deriving DecidableEq, Repr

/-- Lowercasing as used by `name.toLowerCase()` on the label and assignee
strings that occur in this code base. -/
def jsLower (s : String) : String :=
  s.map Char.toLower

/-- The contents of `new Set(labels.map(l => l.name.toLowerCase()))`:
lowercased label names with duplicates removed. -/
def labelNames (ls : List NormalizedLabel) : List String :=
  (ls.map fun l => jsLower l.name).dedup

/-- Set-difference test on label names exactly as written in
`getConflictingFields` / `NormalizedIssueUtils.compare`: the sets differ iff
the sizes differ or some source member is missing from the target set. -/
def labelsDiffer (a b : List NormalizedLabel) : Bool :=
  decide ((labelNames a).length ≠ (labelNames b).length) ||
    !((labelNames a).all fun n => (labelNames b).contains n)

/-- Set-difference test on assignees as written in
`NormalizedIssueUtils.compare`: case-sensitive (`new Set(source.assignees)`
applies no lowercasing). -/
def assigneesDiffer (a b : List String) : Bool :=
  decide (a.dedup.length ≠ b.dedup.length) ||
    !(a.dedup.all fun x => b.dedup.contains x)

/-- A field value as stored in a conflict entry (`sourceIssue[field]`). -/
inductive FieldValue
  | str (s : String)
  | state (s : NormalizedState)
  | labels (ls : List NormalizedLabel)
  | strs (ss : List String)
deriving DecidableEq, Repr

/-- Dynamic field access `issue[field]` for the field names that occur in the
comparison code. -/
def getFieldVal (i : NormalizedIssue) : String → FieldValue
  | "title" => .str i.title
  | "description" => .str i.description
  | "state" => .state i.state
  | "labels" => .labels i.labels
  | "assignees" => .strs i.assignees
  | _ => .str ""

/-- `SyncService.getConflictingFields` (src/unnamed/part_006 lines 194-210):
filters the ordered field list `[title, description, state, labels]`; `state`
is compared by display name, `labels` by case-insensitive name sets, the rest
by strict equality. -/
def getConflictingFields (source target : NormalizedIssue) : List String :=
  ["title", "description", "state", "labels"].filter fun field =>
    if field = "state" then
      decide (source.state.name ≠ target.state.name)
    else if field = "labels" then
      labelsDiffer source.labels target.labels
    else
      decide (getFieldVal source field ≠ getFieldVal target field)

/-- One entry of a structured conflict report. -/
structure ConflictField where
  field : String
  sourceValue : FieldValue
  targetValue : FieldValue
deriving DecidableEq, Repr

/-- Result of `NormalizedIssueUtils.compare`. -/
structure IssueComparison where
  hasChanges : Bool
  conflicts : List ConflictField
deriving DecidableEq, Repr

/-- Conditional conflict entry for one field, mirroring one iteration of the
loop in `NormalizedIssueUtils.compare` (src/types/index.ts lines 188-246). -/
def compareFieldEntry (source target : NormalizedIssue) (field : String) :
    List ConflictField :=
  if field = "state" then
    if source.state.category ≠ target.state.category then
      [⟨field, .state source.state, .state target.state⟩]
    else []
  else if field = "labels" then
    if labelsDiffer source.labels target.labels then
      [⟨field, .labels source.labels, .labels target.labels⟩]
    else []
  else if field = "assignees" then
    if assigneesDiffer source.assignees target.assignees then
      [⟨field, .strs source.assignees, .strs target.assignees⟩]
    else []
  else
    if getFieldVal source field ≠ getFieldVal target field then
      [⟨field, getFieldVal source field, getFieldVal target field⟩]
    else []

/-- `NormalizedIssueUtils.compare`: iterates over
`[title, description, state, labels, assignees]` collecting conflict
entries. -/
def compareIssues (source target : NormalizedIssue) : IssueComparison :=
  let conflicts :=
    compareFieldEntry source target "title" ++
    compareFieldEntry source target "description" ++
    compareFieldEntry source target "state" ++
    compareFieldEntry source target "labels" ++
    compareFieldEntry source target "assignees"
  ⟨decide (0 < conflicts.length), conflicts⟩

/-- One recorded change (`IssueChange`): the name of the provider the change
originated from and the issue that was pushed. -/
structure IssueChange where
  source : String
  issue : NormalizedIssue
deriving DecidableEq, Repr

/-- A reported conflict (`IssueConflict`).  `SyncService.sync` always fills
`lastSyncHash` with the empty string. -/
structure IssueConflict where
  sourceIssue : NormalizedIssue
  targetIssue : NormalizedIssue
  lastSyncHash : String
  conflictingFields : List ConflictField
deriving DecidableEq, Repr

/-- A caught JavaScript `Error`, identified by its message. -/
structure SyncError where
  message : String
deriving DecidableEq, Repr

/-- The value returned by `SyncService.sync`. -/
structure SyncResult where
  sourceToTargetChanges : List IssueChange
  targetToSourceChanges : List IssueChange
  conflicts : List IssueConflict
  errors : List SyncError
deriving DecidableEq, Repr

/-- The argument object of a `createIssue` call as built by `sync` (both call
sites pass title, description, state, labels, assignees and a metadata
object). -/
structure CreateIssueData where
  title : String
  description : String
  state : NormalizedState
  labels : List NormalizedLabel
  assignees : List String
  metadata : IssueMetadata
deriving DecidableEq, Repr

/-- The argument object of an `updateIssue` call (`Partial<NormalizedIssue>`);
absent fields are `none`. -/
structure UpdateIssueData where
  title : Option String := none
  description : Option String := none
  state : Option NormalizedState := none
  labels : Option (List NormalizedLabel) := none
  assignees : Option (List String) := none
  metadata : Option IssueMetadata := none
deriving DecidableEq, Repr

/-- A provider-port call performed by the engine, tagged with the provider it
was sent to. -/
inductive ProviderCall
  | createTarget (data : CreateIssueData)
  | updateTarget (id : String) (data : UpdateIssueData)
  | deleteTarget (id : String)
  | createSource (data : CreateIssueData)
  | updateSource (id : String) (data : UpdateIssueData)
  | deleteSource (id : String)
deriving DecidableEq, Repr

/-- Mutating provider-port operations, threaded through an abstract backend
state `σ`; each returns either the resulting `NormalizedIssue` or a thrown
error, together with the next backend state. -/
structure ProviderOps (σ : Type) where
  createTarget : σ → CreateIssueData → Except SyncError NormalizedIssue × σ
  updateTarget : σ → String → UpdateIssueData → Except SyncError NormalizedIssue × σ
  createSource : σ → CreateIssueData → Except SyncError NormalizedIssue × σ
  updateSource : σ → String → UpdateIssueData → Except SyncError NormalizedIssue × σ

/-- Everything one loop iteration of `sync` appends to the accumulators,
plus the provider calls it performed. -/
structure StepOut where
  calls : List ProviderCall
  changes : List IssueChange
  conflicts : List IssueConflict
  errors : List SyncError
deriving DecidableEq, Repr

/-- The empty step output. -/
def StepOut.empty : StepOut := ⟨[], [], [], []⟩

/-- Componentwise concatenation of step outputs. -/
def StepOut.app (a b : StepOut) : StepOut :=
  ⟨a.calls ++ b.calls, a.changes ++ b.changes,
   a.conflicts ++ b.conflicts, a.errors ++ b.errors⟩

/-- The optional chain `issue.metadata?.externalId`. -/
def metaExternalId (i : NormalizedIssue) : Option String :=
  i.metadata.bind IssueMetadata.externalId

/-- The optional chain `issue.metadata?.provider`. -/
def metaProvider (i : NormalizedIssue) : Option String :=
  i.metadata.bind IssueMetadata.provider

/-- JavaScript falsiness of `issue.metadata?.externalId`: `undefined` and the
empty string are falsy. -/
def jsFalsy : Option String → Bool
  | none => true
  | some s => s = ""

/-- The match predicate of the `targetIssues.find` call in `sync`
(src/unnamed/part_006 lines 46-53): id link, or identical title and
description, or (redundantly) provider plus id link. -/
def isMatchingTarget (sourceName : String) (s t : NormalizedIssue) : Bool :=
  decide (metaExternalId t = some s.id) ||
    (decide (t.title = s.title) && decide (t.description = s.description)) ||
    (decide (metaProvider t = some sourceName) &&
      decide (metaExternalId t = some s.id))

/-- `targetIssues.find(...)`: the first target issue matching the source
issue. -/
def findMatchingTarget (sourceName : String) (targetIssues : List NormalizedIssue)
    (s : NormalizedIssue) : Option NormalizedIssue :=
  targetIssues.find? (isMatchingTarget sourceName s)

/-- The conflict record pushed by `sync` when timestamps tie and fields
differ. -/
def mkConflict (s t : NormalizedIssue) (cf : List String) : IssueConflict :=
  ⟨s, t, "", cf.map fun f => ⟨f, getFieldVal s f, getFieldVal t f⟩⟩

/-- The `updateData` object built in the source-to-target loop: all content
fields from the source issue, and link metadata only when the matched target
has no (or an empty) `externalId`. -/
def sourceUpdateData (sourceName : String) (s t : NormalizedIssue) : UpdateIssueData :=
  ⟨some s.title, some s.description, some s.state, some s.labels, some s.assignees,
    if jsFalsy (metaExternalId t) then some ⟨some s.id, some sourceName⟩ else none⟩

/-- The `createIssue` argument built for an unmatched source issue. -/
def sourceCreateData (sourceName : String) (s : NormalizedIssue) : CreateIssueData :=
  ⟨s.title, s.description, s.state, s.labels, s.assignees, ⟨some s.id, some sourceName⟩⟩

/-- One iteration of the source-to-target loop of `sync`
(src/unnamed/part_006 lines 44-116), including its per-issue `try`/`catch`. -/
def processSourceIssue (ops : ProviderOps σ) (sourceName : String)
    (targetIssues : List NormalizedIssue) (s : NormalizedIssue) (st : σ) :
    StepOut × σ :=
  match findMatchingTarget sourceName targetIssues s with
  | some t =>
    if s.updatedAt = t.updatedAt ∧ getConflictingFields s t ≠ [] then
      (⟨[], [], [mkConflict s t (getConflictingFields s t)], []⟩, st)
    else if s.updatedAt > t.updatedAt then
      match ops.updateTarget st t.id (sourceUpdateData sourceName s t) with
      | (.ok _, st') =>
        (⟨[.updateTarget t.id (sourceUpdateData sourceName s t)],
          [⟨sourceName, s⟩], [], []⟩, st')
      | (.error e, st') =>
        (⟨[.updateTarget t.id (sourceUpdateData sourceName s t)], [], [], [e]⟩, st')
    else
      (StepOut.empty, st)
  | none =>
    match ops.createTarget st (sourceCreateData sourceName s) with
    | (.ok created, st') =>
      (⟨[.createTarget (sourceCreateData sourceName s)],
        [⟨sourceName, created⟩], [], []⟩, st')
    | (.error e, st') =>
      (⟨[.createTarget (sourceCreateData sourceName s)], [], [], [e]⟩, st')

/-- The `updateIssue` argument used to cancel an orphaned target issue. -/
def cancelUpdateData : UpdateIssueData :=
  ⟨none, none, some ⟨.done, "Cancelled", none⟩, none, none, none⟩

/-- The `createIssue` argument built when mirroring a target issue into the
source provider. -/
def targetCreateData (targetName : String) (t : NormalizedIssue) : CreateIssueData :=
  ⟨t.title, t.description, t.state, t.labels, t.assignees, ⟨some t.id, some targetName⟩⟩

/-- The `updateIssue` argument that backfills the source reference on a target
issue after mirroring. -/
def backfillData (sourceName createdId : String) : UpdateIssueData :=
  ⟨none, none, none, none, none, some ⟨some createdId, some sourceName⟩⟩

/-- One iteration of the target-to-source loop of `sync`
(src/unnamed/part_006 lines 119-162), including its per-issue `try`/`catch`. -/
def processTargetIssue (ops : ProviderOps σ) (sourceName targetName : String)
    (sourceIssues : List NormalizedIssue) (t : NormalizedIssue) (st : σ) :
    StepOut × σ :=
  if metaProvider t = some sourceName then
    if sourceIssues.any fun s => decide (some s.id = metaExternalId t) then
      (StepOut.empty, st)
    else
      match ops.updateTarget st t.id cancelUpdateData with
      | (.ok _, st') =>
        (⟨[.updateTarget t.id cancelUpdateData], [⟨targetName, t⟩], [], []⟩, st')
      | (.error e, st') =>
        (⟨[.updateTarget t.id cancelUpdateData], [], [], [e]⟩, st')
  else
    match ops.createSource st (targetCreateData targetName t) with
    | (.error e, st') =>
      (⟨[.createSource (targetCreateData targetName t)], [], [], [e]⟩, st')
    | (.ok created, st') =>
      match ops.updateTarget st' t.id (backfillData sourceName created.id) with
      | (.ok _, st'') =>
        (⟨[.createSource (targetCreateData targetName t),
           .updateTarget t.id (backfillData sourceName created.id)],
          [⟨sourceName, created⟩], [], []⟩, st'')
      | (.error e, st'') =>
        (⟨[.createSource (targetCreateData targetName t),
           .updateTarget t.id (backfillData sourceName created.id)],
          [⟨sourceName, created⟩], [], [e]⟩, st'')

/-- The source-to-target loop over all fetched source issues. -/
def runSourceLoop (ops : ProviderOps σ) (sourceName : String)
    (targetIssues : List NormalizedIssue) :
    List NormalizedIssue → σ → StepOut × σ
  | [], st => (StepOut.empty, st)
  | s :: rest, st =>
    let p := processSourceIssue ops sourceName targetIssues s st
    let r := runSourceLoop ops sourceName targetIssues rest p.2
    (p.1.app r.1, r.2)

/-- The target-to-source loop over all fetched target issues. -/
def runTargetLoop (ops : ProviderOps σ) (sourceName targetName : String)
    (sourceIssues : List NormalizedIssue) :
    List NormalizedIssue → σ → StepOut × σ
  | [], st => (StepOut.empty, st)
  | t :: rest, st =>
    let p := processTargetIssue ops sourceName targetName sourceIssues t st
    let r := runTargetLoop ops sourceName targetName sourceIssues rest p.2
    (p.1.app r.1, r.2)

/-- The result of a `sync` run: the returned `SyncResult`, the raw unfiltered
`changes` accumulator, the provider-call trace, and the final backend
state. -/
structure SyncOutput (σ : Type) where
  result : SyncResult
  rawChanges : List IssueChange
  calls : List ProviderCall
  state : σ

/-- `SyncService.sync` after both fetches succeeded (src/unnamed/part_006
lines 39-173): both loops, then the partition of `changes` by provider
name. -/
def syncCore (ops : ProviderOps σ) (sourceName targetName : String)
    (sourceIssues targetIssues : List NormalizedIssue) (st : σ) : SyncOutput σ :=
  let p := runSourceLoop ops sourceName targetIssues sourceIssues st
  let q := runTargetLoop ops sourceName targetName sourceIssues targetIssues p.2
  let o := p.1.app q.1
  ⟨⟨o.changes.filter fun c => decide (c.source = sourceName),
    o.changes.filter fun c => decide (c.source = targetName),
    o.conflicts, o.errors⟩,
   o.changes, o.calls, q.2⟩

/-- The exact message the retry logic looks for. -/
def rateLimitMessage : String := "API rate limit exceeded"

/-- The `try`/`catch` around one provider's `getIssues` (src/unnamed/part_006
lines 15-25): on a rate-limit error the fetch is retried exactly once (after a
fixed delay, which has no observable effect here); any other error
propagates.  `fetch n` is the outcome of the `n`-th invocation; the second
component counts invocations. -/
def fetchWithRetry (fetch : Nat → Except SyncError (List NormalizedIssue)) :
    Except SyncError (List NormalizedIssue) × Nat :=
  match fetch 0 with
  | .ok issues => (.ok issues, 1)
  | .error e =>
    if e.message = rateLimitMessage then (fetch 1, 2) else (.error e, 1)

/-- Full `SyncService.sync` including the two fetches with their retry
wrappers; also returns how often each provider's `getIssues` was invoked. -/
def syncWithFetch (ops : ProviderOps σ) (sourceName targetName : String)
    (sourceFetch targetFetch : Nat → Except SyncError (List NormalizedIssue))
    (st : σ) : Except SyncError (SyncOutput σ) × Nat × Nat :=
  match fetchWithRetry sourceFetch with
  | (.error e, n) => (.error e, n, 0)
  | (.ok src, n) =>
    match fetchWithRetry targetFetch with
    | (.error e, m) => (.error e, n, m)
    | (.ok tgt, m) => (.ok (syncCore ops sourceName targetName src tgt st), n, m)

/-- Backend state for a two-run experiment: the live issue lists of both
providers, a logical clock used for fresh timestamps, and a counter used for
fresh ids. -/
structure World where
  sourceIssues : List NormalizedIssue
  targetIssues : List NormalizedIssue
  clock : Nat
  counter : Nat
deriving DecidableEq, Repr

/-- Modelled from the spec: the Provider Port back ends themselves (the issue
stores behind `createIssue`, spec section 6) are outside src; per the port
contract a created issue carries the submitted fields, provider-assigned fresh
id and timestamps, and the creating provider as `sourceProvider`. -/
def issueFromCreate (providerName id : String) (clock : Nat)
    (d : CreateIssueData) : NormalizedIssue :=
  ⟨id, d.title, d.description, d.state, d.labels, d.assignees, clock, clock,
    providerName, some d.metadata⟩

/-- Modelled from the spec: the back end behind `updateIssue` (spec section 6)
is outside src; per the port contract an update replaces exactly the supplied
fields of `Partial<NormalizedIssue>` and refreshes the update timestamp. -/
def applyUpdate (d : UpdateIssueData) (clock : Nat) (i : NormalizedIssue) :
    NormalizedIssue :=
  { i with
    title := d.title.getD i.title
    description := d.description.getD i.description
    state := d.state.getD i.state
    labels := d.labels.getD i.labels
    assignees := d.assignees.getD i.assignees
    metadata := match d.metadata with | some m => some m | none => i.metadata
    updatedAt := clock }

/-- Placeholder issue returned by a modelled update whose id was not found;
never relevant because `sync` discards `updateIssue` results. -/
def placeholderIssue : NormalizedIssue :=
  ⟨"", "", "", ⟨.backlog, "", none⟩, [], [], 0, 0, "", none⟩

/-- Fresh id assigned by a modelled backend. -/
def freshId (w : World) : String := "created-" ++ toString w.counter

/-- Modelled from the spec: a provider's issue store (spec section 6, outside
src).  `createIssue` appends a fresh issue, `updateIssue` rewrites the issue
with the given id in place; every mutation advances the clock. -/
def worldCreate (providerName : String)
    (get : World → List NormalizedIssue) (set : World → List NormalizedIssue → World)
    (w : World) (d : CreateIssueData) : Except SyncError NormalizedIssue × World :=
  let i := issueFromCreate providerName (freshId w) w.clock d
  (.ok i,
   { set w (get w ++ [i]) with clock := w.clock + 1, counter := w.counter + 1 })

/-- Modelled from the spec: in-place update in a provider's issue store (spec
section 6, outside src). -/
def worldUpdate (get : World → List NormalizedIssue)
    (set : World → List NormalizedIssue → World)
    (w : World) (id : String) (d : UpdateIssueData) :
    Except SyncError NormalizedIssue × World :=
  let w' := { set w ((get w).map fun i =>
                if i.id = id then applyUpdate d w.clock i else i) with
              clock := w.clock + 1 }
  (((get w).find? fun i => decide (i.id = id)).elim (.ok placeholderIssue)
      (fun i => .ok (applyUpdate d w.clock i)), w')

/-- Replace the target list of a world. -/
def World.withTargets (w : World) (l : List NormalizedIssue) : World :=
  { w with targetIssues := l }

/-- Replace the source list of a world. -/
def World.withSources (w : World) (l : List NormalizedIssue) : World :=
  { w with sourceIssues := l }

/-- Modelled from the spec: both backends as never-failing issue stores (spec
sections 5-6; the stores themselves are outside src). -/
def worldOps (sourceName targetName : String) : ProviderOps World :=
  ⟨worldCreate targetName World.targetIssues World.withTargets,
   worldUpdate World.targetIssues World.withTargets,
   worldCreate sourceName World.sourceIssues World.withSources,
   worldUpdate World.sourceIssues World.withSources⟩

/-- One full `sync()` run against the modelled backends: fetch both current
issue lists, run the engine, leave the mutated world behind. -/
def runOnce (sourceName targetName : String) (w : World) : SyncOutput World :=
  syncCore (worldOps sourceName targetName) sourceName targetName
    w.sourceIssues w.targetIssues w

/-- Concrete always-succeeding provider operations over a trivial backend
state, used to evaluate single-run scenarios. -/
def okOps : ProviderOps Unit :=
  ⟨fun _ d => (.ok (issueFromCreate "target" "created-0" 100 d), ()),
   fun _ _ _ => (.ok placeholderIssue, ()),
   fun _ d => (.ok (issueFromCreate "source" "created-0" 100 d), ()),
   fun _ _ _ => (.ok placeholderIssue, ())⟩

/-- Concrete always-throwing provider operations over a trivial backend
state, used to exercise the partial-failure path. -/
def failOps : ProviderOps Unit :=
  ⟨fun _ _ => (.error ⟨"boom"⟩, ()),
   fun _ _ _ => (.error ⟨"boom"⟩, ()),
   fun _ _ => (.error ⟨"boom"⟩, ()),
   fun _ _ _ => (.error ⟨"boom"⟩, ())⟩

/-- Classification of provider calls as deletions. -/
def ProviderCall.isDelete : ProviderCall → Bool
  | .deleteTarget _ => true
  | .deleteSource _ => true
  | _ => false

/-- Recognizes a `createIssue` call on the target provider whose link metadata
references a given source id. -/
def isCreateTargetFor (sid : String) : ProviderCall → Bool
  | .createTarget d => decide (d.metadata.externalId = some sid)
  | _ => false

/-- Provider operations that never throw. -/
def ProviderOps.NoFail (ops : ProviderOps σ) : Prop :=
  (∀ st d, ∃ v st', ops.createTarget st d = (.ok v, st')) ∧
  (∀ st id d, ∃ v st', ops.updateTarget st id d = (.ok v, st')) ∧
  (∀ st d, ∃ v st', ops.createSource st d = (.ok v, st')) ∧
  (∀ st id d, ∃ v st', ops.updateSource st id d = (.ok v, st'))

/-- Concrete source issue used in the conflict-surfacing scenarios. -/
def exSource : NormalizedIssue :=
  ⟨"s1", "Fix login bug", "desc", ⟨.todo, "Todo", none⟩, [], [], 10, 50, "github",
    none⟩

/-- Concrete target issue linked to `exSource` only by `externalId` (its
`metadata.provider` is absent), with equal timestamp and a different title. -/
def exTargetNoProv : NormalizedIssue :=
  ⟨"t1", "Fix login issue", "desc", ⟨.todo, "Todo", none⟩, [], [], 10, 50, "plane",
    some ⟨some "s1", none⟩⟩

/-- Concrete target issue fully linked to `exSource` (both `externalId` and
`provider`), with equal timestamp and a different title. -/
def exTargetLinked : NormalizedIssue :=
  ⟨"t1", "Fix login issue", "desc", ⟨.todo, "Todo", none⟩, [], [], 10, 50, "plane",
    some ⟨some "s1", some "github"⟩⟩

/-- Concrete orphaned target issue: its link metadata names the source
provider and a source id (`ghost`) that is absent from the source set. -/
def exOrphanTarget : NormalizedIssue :=
  ⟨"t2", "B", "d2", ⟨.todo, "Todo", none⟩, [], [], 10, 20, "plane",
    some ⟨some "ghost", some "github"⟩⟩

/-- Initial backend world for the idempotence counterexample: one source
issue, its conflicting linked target, and one orphaned target. -/
def exWorld : World := ⟨[exSource], [exTargetLinked, exOrphanTarget], 1000, 0⟩

/-- Concrete issue pair for the conflict-detector counterexample: same state
category under different display names, and assignees equal up to case. -/
def exCmpA : NormalizedIssue :=
  ⟨"a", "T", "D", ⟨.done, "Done", none⟩, [], ["Alice"], 0, 0, "github", none⟩

/-- Counterpart of `exCmpA`. -/
def exCmpB : NormalizedIssue :=
  ⟨"b", "T", "D", ⟨.done, "Closed", none⟩, [], ["alice"], 0, 0, "plane", none⟩

/-- Concrete target issue that content-matches `exMatchSource` while already
carrying an unrelated `externalId`. -/
def exContentTarget : NormalizedIssue :=
  ⟨"tA", "Same title", "Same desc", ⟨.todo, "Todo", none⟩, [], [], 0, 30, "plane",
    some ⟨some "other-id", some "github"⟩⟩

/-- Concrete target issue linked by id to `exMatchSource`, listed after
`exContentTarget`. -/
def exLinkedTarget : NormalizedIssue :=
  ⟨"tB", "Different title", "Different desc", ⟨.todo, "Todo", none⟩, [], [], 0, 30,
    "plane", some ⟨some "sM", some "github"⟩⟩

/-- Concrete source issue for the matcher-precedence counterexample. -/
def exMatchSource : NormalizedIssue :=
  ⟨"sM", "Same title", "Same desc", ⟨.todo, "Todo", none⟩, [], [], 0, 40, "github",
    none⟩

/-- Concrete source issue for the state-flapping scenario: strictly newer than
its linked target, same state category under a different display name. -/
def exFlapSource : NormalizedIssue :=
  ⟨"s9", "Title", "Desc", ⟨.done, "Completed", none⟩, [], [], 0, 90, "github",
    none⟩

/-- Concrete linked target for the state-flapping scenario. -/
def exFlapTarget : NormalizedIssue :=
  ⟨"t9", "Old title", "Old desc", ⟨.done, "Done", none⟩, [], [], 0, 40, "plane",
    some ⟨some "s9", some "github"⟩⟩

@[simp] theorem StepOut.app_calls (a b : StepOut) :
    (a.app b).calls = a.calls ++ b.calls := rfl

@[simp] theorem StepOut.app_changes (a b : StepOut) :
    (a.app b).changes = a.changes ++ b.changes := rfl

@[simp] theorem StepOut.app_conflicts (a b : StepOut) :
    (a.app b).conflicts = a.conflicts ++ b.conflicts := rfl

@[simp] theorem StepOut.app_errors (a b : StepOut) :
    (a.app b).errors = a.errors ++ b.errors := rfl

@[simp] theorem StepOut.empty_calls : StepOut.empty.calls = [] := rfl

@[simp] theorem StepOut.empty_changes : StepOut.empty.changes = [] := rfl

@[simp] theorem StepOut.empty_conflicts : StepOut.empty.conflicts = [] := rfl

@[simp] theorem StepOut.empty_errors : StepOut.empty.errors = [] := rfl

@[simp] theorem StepOut.empty_app (a : StepOut) : StepOut.empty.app a = a := by
  cases a; simp [StepOut.app, StepOut.empty]

@[simp] theorem StepOut.app_empty (a : StepOut) : a.app StepOut.empty = a := by
  cases a; simp [StepOut.app, StepOut.empty]

theorem StepOut.app_assoc (a b c : StepOut) :
    (a.app b).app c = a.app (b.app c) := by
  simp [StepOut.app]

/-- Case analysis on one source-loop iteration: it is a conflict report, an
update (succeeded or thrown), a silent no-op, or a creation (succeeded or
thrown). -/
theorem processSourceIssue_cases (ops : ProviderOps σ) (n : String)
    (tgts : List NormalizedIssue) (s : NormalizedIssue) (st : σ)
    (motive : StepOut × σ → Prop)
    (hconf : ∀ t, findMatchingTarget n tgts s = some t →
      s.updatedAt = t.updatedAt → getConflictingFields s t ≠ [] →
      motive (⟨[], [], [mkConflict s t (getConflictingFields s t)], []⟩, st))
    (hupd : ∀ t v st', findMatchingTarget n tgts s = some t →
      s.updatedAt > t.updatedAt →
      ops.updateTarget st t.id (sourceUpdateData n s t) = (.ok v, st') →
      motive (⟨[.updateTarget t.id (sourceUpdateData n s t)], [⟨n, s⟩], [], []⟩, st'))
    (hupdErr : ∀ t e st', findMatchingTarget n tgts s = some t →
      s.updatedAt > t.updatedAt →
      ops.updateTarget st t.id (sourceUpdateData n s t) = (.error e, st') →
      motive (⟨[.updateTarget t.id (sourceUpdateData n s t)], [], [], [e]⟩, st'))
    (hnoop : ∀ t, findMatchingTarget n tgts s = some t →
      ¬(s.updatedAt = t.updatedAt ∧ getConflictingFields s t ≠ []) →
      ¬(s.updatedAt > t.updatedAt) →
      motive (StepOut.empty, st))
    (hcre : ∀ v st', findMatchingTarget n tgts s = none →
      ops.createTarget st (sourceCreateData n s) = (.ok v, st') →
      motive (⟨[.createTarget (sourceCreateData n s)], [⟨n, v⟩], [], []⟩, st'))
    (hcreErr : ∀ e st', findMatchingTarget n tgts s = none →
      ops.createTarget st (sourceCreateData n s) = (.error e, st') →
      motive (⟨[.createTarget (sourceCreateData n s)], [], [], [e]⟩, st')) :
    motive (processSourceIssue ops n tgts s st) := by
  unfold processSourceIssue
  split
  next t hf =>
    split_ifs with h1 h2
    · exact hconf t hf h1.1 h1.2
    · split
      next v st' hu => exact hupd t v st' hf h2 hu
      next e st' hu => exact hupdErr t e st' hf h2 hu
    · exact hnoop t hf h1 h2
  next hf =>
    split
    next v st' hc => exact hcre v st' hf hc
    next e st' hc => exact hcreErr e st' hf hc

/-- Case analysis on one target-loop iteration: linked with live source (silent),
orphan cancellation (succeeded or thrown), or mirror-to-source (with the three
outcomes of its two calls). -/
theorem processTargetIssue_cases (ops : ProviderOps σ) (n m : String)
    (src : List NormalizedIssue) (t : NormalizedIssue) (st : σ)
    (motive : StepOut × σ → Prop)
    (hlive : metaProvider t = some n →
      (src.any fun s => decide (some s.id = metaExternalId t)) = true →
      motive (StepOut.empty, st))
    (hcancel : ∀ v st', metaProvider t = some n →
      (src.any fun s => decide (some s.id = metaExternalId t)) = false →
      ops.updateTarget st t.id cancelUpdateData = (.ok v, st') →
      motive (⟨[.updateTarget t.id cancelUpdateData], [⟨m, t⟩], [], []⟩, st'))
    (hcancelErr : ∀ e st', metaProvider t = some n →
      (src.any fun s => decide (some s.id = metaExternalId t)) = false →
      ops.updateTarget st t.id cancelUpdateData = (.error e, st') →
      motive (⟨[.updateTarget t.id cancelUpdateData], [], [], [e]⟩, st'))
    (hmirror : ∀ created st' v st'', metaProvider t ≠ some n →
      ops.createSource st (targetCreateData m t) = (.ok created, st') →
      ops.updateTarget st' t.id (backfillData n created.id) = (.ok v, st'') →
      motive (⟨[.createSource (targetCreateData m t),
                .updateTarget t.id (backfillData n created.id)],
               [⟨n, created⟩], [], []⟩, st''))
    (hmirrorUpdErr : ∀ created st' e st'', metaProvider t ≠ some n →
      ops.createSource st (targetCreateData m t) = (.ok created, st') →
      ops.updateTarget st' t.id (backfillData n created.id) = (.error e, st'') →
      motive (⟨[.createSource (targetCreateData m t),
                .updateTarget t.id (backfillData n created.id)],
               [⟨n, created⟩], [], [e]⟩, st''))
    (hmirrorErr : ∀ e st', metaProvider t ≠ some n →
      ops.createSource st (targetCreateData m t) = (.error e, st') →
      motive (⟨[.createSource (targetCreateData m t)], [], [], [e]⟩, st')) :
    motive (processTargetIssue ops n m src t st) := by
  unfold processTargetIssue
  split_ifs with hp ha
  · exact hlive hp ha
  · split
    next v st' hu =>
      exact hcancel v st' hp (Bool.not_eq_true _ ▸ eq_false_of_ne_true ha) hu
    next e st' hu =>
      exact hcancelErr e st' hp (Bool.not_eq_true _ ▸ eq_false_of_ne_true ha) hu
  · split
    next e st' hc => exact hmirrorErr e st' hp hc
    next created st' hc =>
      split
      next v st'' hu => exact hmirror created st' v st'' hp hc hu
      next e st'' hu => exact hmirrorUpdErr created st' e st'' hp hc hu

@[simp] theorem runSourceLoop_nil (ops : ProviderOps σ) (n : String)
    (tgts : List NormalizedIssue) (st : σ) :
    runSourceLoop ops n tgts [] st = (StepOut.empty, st) := rfl

theorem runSourceLoop_cons (ops : ProviderOps σ) (n : String)
    (tgts : List NormalizedIssue) (s : NormalizedIssue)
    (rest : List NormalizedIssue) (st : σ) :
    runSourceLoop ops n tgts (s :: rest) st =
      ((processSourceIssue ops n tgts s st).1.app
        (runSourceLoop ops n tgts rest (processSourceIssue ops n tgts s st).2).1,
       (runSourceLoop ops n tgts rest (processSourceIssue ops n tgts s st).2).2) := rfl

theorem runSourceLoop_append (ops : ProviderOps σ) (n : String)
    (tgts : List NormalizedIssue) (as bs : List NormalizedIssue) (st : σ) :
    runSourceLoop ops n tgts (as ++ bs) st =
      ((runSourceLoop ops n tgts as st).1.app
        (runSourceLoop ops n tgts bs (runSourceLoop ops n tgts as st).2).1,
       (runSourceLoop ops n tgts bs (runSourceLoop ops n tgts as st).2).2) := by
  induction as generalizing st with
  | nil => simp
  | cons s rest ih =>
    simp only [List.cons_append, runSourceLoop_cons, ih, StepOut.app_assoc]

@[simp] theorem runTargetLoop_nil (ops : ProviderOps σ) (n m : String)
    (src : List NormalizedIssue) (st : σ) :
    runTargetLoop ops n m src [] st = (StepOut.empty, st) := rfl

theorem runTargetLoop_cons (ops : ProviderOps σ) (n m : String)
    (src : List NormalizedIssue) (t : NormalizedIssue)
    (rest : List NormalizedIssue) (st : σ) :
    runTargetLoop ops n m src (t :: rest) st =
      ((processTargetIssue ops n m src t st).1.app
        (runTargetLoop ops n m src rest (processTargetIssue ops n m src t st).2).1,
       (runTargetLoop ops n m src rest (processTargetIssue ops n m src t st).2).2) := rfl

theorem runTargetLoop_append (ops : ProviderOps σ) (n m : String)
    (src : List NormalizedIssue) (as bs : List NormalizedIssue) (st : σ) :
    runTargetLoop ops n m src (as ++ bs) st =
      ((runTargetLoop ops n m src as st).1.app
        (runTargetLoop ops n m src bs (runTargetLoop ops n m src as st).2).1,
       (runTargetLoop ops n m src bs (runTargetLoop ops n m src as st).2).2) := by
  induction as generalizing st with
  | nil => simp
  | cons t rest ih =>
    simp only [List.cons_append, runTargetLoop_cons, ih, StepOut.app_assoc]

theorem processSourceIssue_silent_state (ops : ProviderOps σ) (n : String)
    (tgts : List NormalizedIssue) (s : NormalizedIssue) (st : σ)
    (h : (processSourceIssue ops n tgts s st).1.changes = [])
    (h' : (processSourceIssue ops n tgts s st).1.errors = []) :
    (processSourceIssue ops n tgts s st).2 = st := by
  revert h h'
  refine processSourceIssue_cases ops n tgts s st
    (fun r => r.1.changes = [] → r.1.errors = [] → r.2 = st) ?_ ?_ ?_ ?_ ?_ ?_ <;>
    intros <;> simp_all

theorem processTargetIssue_silent_state (ops : ProviderOps σ) (n m : String)
    (src : List NormalizedIssue) (t : NormalizedIssue) (st : σ)
    (h : (processTargetIssue ops n m src t st).1.changes = [])
    (h' : (processTargetIssue ops n m src t st).1.errors = []) :
    (processTargetIssue ops n m src t st).2 = st := by
  revert h h'
  refine processTargetIssue_cases ops n m src t st
    (fun r => r.1.changes = [] → r.1.errors = [] → r.2 = st) ?_ ?_ ?_ ?_ ?_ ?_ <;>
    intros <;> simp_all

theorem runSourceLoop_silent_state (ops : ProviderOps σ) (n : String)
    (tgts : List NormalizedIssue) (src : List NormalizedIssue) (st : σ)
    (h : (runSourceLoop ops n tgts src st).1.changes = [])
    (h' : (runSourceLoop ops n tgts src st).1.errors = []) :
    (runSourceLoop ops n tgts src st).2 = st := by
  induction src generalizing st with
  | nil => rfl
  | cons s rest ih =>
    rw [runSourceLoop_cons] at h h' ⊢
    simp only [StepOut.app_changes, StepOut.app_errors, List.append_eq_nil] at h h'
    have hst : (processSourceIssue ops n tgts s st).2 = st :=
      processSourceIssue_silent_state ops n tgts s st h.1 h'.1
    rw [hst] at h h' ⊢
    exact ih st h.2 h'.2

theorem runTargetLoop_silent_state (ops : ProviderOps σ) (n m : String)
    (src : List NormalizedIssue) (tgt : List NormalizedIssue) (st : σ)
    (h : (runTargetLoop ops n m src tgt st).1.changes = [])
    (h' : (runTargetLoop ops n m src tgt st).1.errors = []) :
    (runTargetLoop ops n m src tgt st).2 = st := by
  induction tgt generalizing st with
  | nil => rfl
  | cons t rest ih =>
    rw [runTargetLoop_cons] at h h' ⊢
    simp only [StepOut.app_changes, StepOut.app_errors, List.append_eq_nil] at h h'
    have hst : (processTargetIssue ops n m src t st).2 = st :=
      processTargetIssue_silent_state ops n m src t st h.1 h'.1
    rw [hst] at h h' ⊢
    exact ih st h.2 h'.2

theorem processSourceIssue_changes_source (ops : ProviderOps σ) (n : String)
    (tgts : List NormalizedIssue) (s : NormalizedIssue) (st : σ) :
    ∀ c ∈ (processSourceIssue ops n tgts s st).1.changes, c.source = n := by
  refine processSourceIssue_cases ops n tgts s st
    (fun r => ∀ c ∈ r.1.changes, c.source = n) ?_ ?_ ?_ ?_ ?_ ?_ <;>
    intros <;> simp_all

theorem processTargetIssue_changes_source (ops : ProviderOps σ) (n m : String)
    (src : List NormalizedIssue) (t : NormalizedIssue) (st : σ) :
    ∀ c ∈ (processTargetIssue ops n m src t st).1.changes,
      c.source = n ∨ c.source = m := by
  refine processTargetIssue_cases ops n m src t st
    (fun r => ∀ c ∈ r.1.changes, c.source = n ∨ c.source = m) ?_ ?_ ?_ ?_ ?_ ?_ <;>
    intros <;> simp_all

theorem runSourceLoop_changes_source (ops : ProviderOps σ) (n : String)
    (tgts : List NormalizedIssue) (src : List NormalizedIssue) (st : σ) :
    ∀ c ∈ (runSourceLoop ops n tgts src st).1.changes, c.source = n := by
  induction src generalizing st with
  | nil => simp
  | cons s rest ih =>
    rw [runSourceLoop_cons]
    simp only [StepOut.app_changes, List.mem_append]
    rintro c (hc | hc)
    · exact processSourceIssue_changes_source ops n tgts s st c hc
    · exact ih _ c hc

theorem runTargetLoop_changes_source (ops : ProviderOps σ) (n m : String)
    (src : List NormalizedIssue) (tgt : List NormalizedIssue) (st : σ) :
    ∀ c ∈ (runTargetLoop ops n m src tgt st).1.changes,
      c.source = n ∨ c.source = m := by
  induction tgt generalizing st with
  | nil => simp
  | cons t rest ih =>
    rw [runTargetLoop_cons]
    simp only [StepOut.app_changes, List.mem_append]
    rintro c (hc | hc)
    · exact processTargetIssue_changes_source ops n m src t st c hc
    · exact ih _ c hc

theorem processSourceIssue_no_delete (ops : ProviderOps σ) (n : String)
    (tgts : List NormalizedIssue) (s : NormalizedIssue) (st : σ) :
    ∀ c ∈ (processSourceIssue ops n tgts s st).1.calls, c.isDelete = false := by
  refine processSourceIssue_cases ops n tgts s st
    (fun r => ∀ c ∈ r.1.calls, c.isDelete = false) ?_ ?_ ?_ ?_ ?_ ?_ <;>
    intros <;> simp_all [ProviderCall.isDelete]

theorem processTargetIssue_no_delete (ops : ProviderOps σ) (n m : String)
    (src : List NormalizedIssue) (t : NormalizedIssue) (st : σ) :
    ∀ c ∈ (processTargetIssue ops n m src t st).1.calls, c.isDelete = false := by
  refine processTargetIssue_cases ops n m src t st
    (fun r => ∀ c ∈ r.1.calls, c.isDelete = false) ?_ ?_ ?_ ?_ ?_ ?_ <;>
    intros <;> simp_all [ProviderCall.isDelete]

theorem runSourceLoop_no_delete (ops : ProviderOps σ) (n : String)
    (tgts : List NormalizedIssue) (src : List NormalizedIssue) (st : σ) :
    ∀ c ∈ (runSourceLoop ops n tgts src st).1.calls, c.isDelete = false := by
  induction src generalizing st with
  | nil => simp
  | cons s rest ih =>
    rw [runSourceLoop_cons]
    simp only [StepOut.app_calls, List.mem_append]
    rintro c (hc | hc)
    · exact processSourceIssue_no_delete ops n tgts s st c hc
    · exact ih _ c hc

theorem runTargetLoop_no_delete (ops : ProviderOps σ) (n m : String)
    (src : List NormalizedIssue) (tgt : List NormalizedIssue) (st : σ) :
    ∀ c ∈ (runTargetLoop ops n m src tgt st).1.calls, c.isDelete = false := by
  induction tgt generalizing st with
  | nil => simp
  | cons t rest ih =>
    rw [runTargetLoop_cons]
    simp only [StepOut.app_calls, List.mem_append]
    rintro c (hc | hc)
    · exact processTargetIssue_no_delete ops n m src t st c hc
    · exact ih _ c hc

theorem processSourceIssue_filter_other (ops : ProviderOps σ) (n : String)
    (tgts : List NormalizedIssue) (s : NormalizedIssue) (st : σ) (sid : String)
    (hid : s.id ≠ sid) :
    (processSourceIssue ops n tgts s st).1.calls.filter (isCreateTargetFor sid) = [] := by
  refine processSourceIssue_cases ops n tgts s st
    (fun r => r.1.calls.filter (isCreateTargetFor sid) = []) ?_ ?_ ?_ ?_ ?_ ?_ <;>
    intros <;> simp_all [isCreateTargetFor, sourceCreateData]

theorem processSourceIssue_filter_self (ops : ProviderOps σ) (n : String)
    (tgts : List NormalizedIssue) (s : NormalizedIssue) (st : σ)
    (hm : ∀ t ∈ tgts, isMatchingTarget n s t = false) :
    (processSourceIssue ops n tgts s st).1.calls.filter (isCreateTargetFor s.id) =
      [.createTarget (sourceCreateData n s)] := by
  have hf : findMatchingTarget n tgts s = none := by
    apply List.find?_eq_none.mpr
    intro t ht
    simp [hm t ht]
  refine processSourceIssue_cases ops n tgts s st
    (fun r => r.1.calls.filter (isCreateTargetFor s.id) =
      [.createTarget (sourceCreateData n s)]) ?_ ?_ ?_ ?_ ?_ ?_ <;>
    intros <;> simp_all [isCreateTargetFor, sourceCreateData]

theorem processTargetIssue_filter_createTarget (ops : ProviderOps σ) (n m : String)
    (src : List NormalizedIssue) (t : NormalizedIssue) (st : σ) (sid : String) :
    (processTargetIssue ops n m src t st).1.calls.filter (isCreateTargetFor sid) = [] := by
  refine processTargetIssue_cases ops n m src t st
    (fun r => r.1.calls.filter (isCreateTargetFor sid) = []) ?_ ?_ ?_ ?_ ?_ ?_ <;>
    intros <;> simp_all [isCreateTargetFor]

theorem runSourceLoop_filter_other (ops : ProviderOps σ) (n : String)
    (tgts : List NormalizedIssue) (src : List NormalizedIssue) (st : σ) (sid : String)
    (hid : ∀ s ∈ src, s.id ≠ sid) :
    (runSourceLoop ops n tgts src st).1.calls.filter (isCreateTargetFor sid) = [] := by
  induction src generalizing st with
  | nil => simp
  | cons s rest ih =>
    rw [runSourceLoop_cons]
    simp only [StepOut.app_calls, List.filter_append]
    rw [processSourceIssue_filter_other ops n tgts s st sid (hid s (by simp))]
    rw [ih _ fun x hx => hid x (by simp [hx])]
    rfl

theorem runTargetLoop_filter_createTarget (ops : ProviderOps σ) (n m : String)
    (src : List NormalizedIssue) (tgt : List NormalizedIssue) (st : σ) (sid : String) :
    (runTargetLoop ops n m src tgt st).1.calls.filter (isCreateTargetFor sid) = [] := by
  induction tgt generalizing st with
  | nil => simp
  | cons t rest ih =>
    rw [runTargetLoop_cons]
    simp only [StepOut.app_calls, List.filter_append]
    rw [processTargetIssue_filter_createTarget, ih]
    rfl

theorem processTargetIssue_cancel_mem (ops : ProviderOps σ) (n m : String)
    (src : List NormalizedIssue) (t : NormalizedIssue) (st : σ)
    (hp : metaProvider t = some n)
    (hx : (src.any fun s => decide (some s.id = metaExternalId t)) = false) :
    ProviderCall.updateTarget t.id cancelUpdateData ∈
      (processTargetIssue ops n m src t st).1.calls := by
  refine processTargetIssue_cases ops n m src t st
    (fun r => ProviderCall.updateTarget t.id cancelUpdateData ∈ r.1.calls)
    ?_ ?_ ?_ ?_ ?_ ?_ <;> intros <;> simp_all

theorem runTargetLoop_cancel_mem (ops : ProviderOps σ) (n m : String)
    (src : List NormalizedIssue) (tgt : List NormalizedIssue) (st : σ)
    (t : NormalizedIssue) (ht : t ∈ tgt)
    (hp : metaProvider t = some n)
    (hx : (src.any fun s => decide (some s.id = metaExternalId t)) = false) :
    ProviderCall.updateTarget t.id cancelUpdateData ∈
      (runTargetLoop ops n m src tgt st).1.calls := by
  induction tgt generalizing st with
  | nil => cases ht
  | cons t' rest ih =>
    rw [runTargetLoop_cons]
    simp only [StepOut.app_calls, List.mem_append]
    rcases List.mem_cons.mp ht with rfl | hmem
    · exact Or.inl (processTargetIssue_cancel_mem ops n m src t st hp hx)
    · exact Or.inr (ih _ hmem)

theorem processSourceIssue_errors_nofail (ops : ProviderOps σ) (n : String)
    (tgts : List NormalizedIssue) (s : NormalizedIssue) (st : σ)
    (hnf : ops.NoFail) :
    (processSourceIssue ops n tgts s st).1.errors = [] := by
  refine processSourceIssue_cases ops n tgts s st
    (fun r => r.1.errors = []) ?_ ?_ ?_ ?_ ?_ ?_
  · intros; rfl
  · intros; rfl
  · intro t e st' _ _ hu
    obtain ⟨v, st'', hv⟩ := hnf.2.1 st t.id (sourceUpdateData n s t)
    rw [hv] at hu
    simp at hu
  · intros; rfl
  · intros; rfl
  · intro e st' _ hc
    obtain ⟨v, st'', hv⟩ := hnf.1 st (sourceCreateData n s)
    rw [hv] at hc
    simp at hc

theorem processTargetIssue_errors_nofail (ops : ProviderOps σ) (n m : String)
    (src : List NormalizedIssue) (t : NormalizedIssue) (st : σ)
    (hnf : ops.NoFail) :
    (processTargetIssue ops n m src t st).1.errors = [] := by
  refine processTargetIssue_cases ops n m src t st
    (fun r => r.1.errors = []) ?_ ?_ ?_ ?_ ?_ ?_
  · intros; rfl
  · intros; rfl
  · intro e st' _ _ hu
    obtain ⟨v, st'', hv⟩ := hnf.2.1 st t.id cancelUpdateData
    rw [hv] at hu
    simp at hu
  · intros; rfl
  · intro created st' e st'' _ hc hu
    obtain ⟨v, st''', hv⟩ := hnf.2.1 st' t.id (backfillData n created.id)
    rw [hv] at hu
    simp at hu
  · intro e st' _ hc
    obtain ⟨v, st'', hv⟩ := hnf.2.2.1 st (targetCreateData m t)
    rw [hv] at hc
    simp at hc

theorem runSourceLoop_errors_nofail (ops : ProviderOps σ) (n : String)
    (tgts : List NormalizedIssue) (src : List NormalizedIssue) (st : σ)
    (hnf : ops.NoFail) :
    (runSourceLoop ops n tgts src st).1.errors = [] := by
  induction src generalizing st with
  | nil => rfl
  | cons s rest ih =>
    rw [runSourceLoop_cons]
    simp only [StepOut.app_errors, List.append_eq_nil]
    exact ⟨processSourceIssue_errors_nofail ops n tgts s st hnf, ih _⟩

theorem runTargetLoop_errors_nofail (ops : ProviderOps σ) (n m : String)
    (src : List NormalizedIssue) (tgt : List NormalizedIssue) (st : σ)
    (hnf : ops.NoFail) :
    (runTargetLoop ops n m src tgt st).1.errors = [] := by
  induction tgt generalizing st with
  | nil => rfl
  | cons t rest ih =>
    rw [runTargetLoop_cons]
    simp only [StepOut.app_errors, List.append_eq_nil]
    exact ⟨processTargetIssue_errors_nofail ops n m src t st hnf, ih _⟩

theorem syncCore_calls (ops : ProviderOps σ) (n m : String)
    (src tgt : List NormalizedIssue) (st : σ) :
    (syncCore ops n m src tgt st).calls =
      (runSourceLoop ops n tgt src st).1.calls ++
      (runTargetLoop ops n m src tgt (runSourceLoop ops n tgt src st).2).1.calls := rfl

theorem syncCore_rawChanges (ops : ProviderOps σ) (n m : String)
    (src tgt : List NormalizedIssue) (st : σ) :
    (syncCore ops n m src tgt st).rawChanges =
      (runSourceLoop ops n tgt src st).1.changes ++
      (runTargetLoop ops n m src tgt (runSourceLoop ops n tgt src st).2).1.changes := rfl

theorem syncCore_conflicts (ops : ProviderOps σ) (n m : String)
    (src tgt : List NormalizedIssue) (st : σ) :
    (syncCore ops n m src tgt st).result.conflicts =
      (runSourceLoop ops n tgt src st).1.conflicts ++
      (runTargetLoop ops n m src tgt (runSourceLoop ops n tgt src st).2).1.conflicts := rfl

theorem syncCore_errors (ops : ProviderOps σ) (n m : String)
    (src tgt : List NormalizedIssue) (st : σ) :
    (syncCore ops n m src tgt st).result.errors =
      (runSourceLoop ops n tgt src st).1.errors ++
      (runTargetLoop ops n m src tgt (runSourceLoop ops n tgt src st).2).1.errors := rfl

theorem syncCore_s2t (ops : ProviderOps σ) (n m : String)
    (src tgt : List NormalizedIssue) (st : σ) :
    (syncCore ops n m src tgt st).result.sourceToTargetChanges =
      (syncCore ops n m src tgt st).rawChanges.filter
        fun c => decide (c.source = n) := rfl

theorem syncCore_t2s (ops : ProviderOps σ) (n m : String)
    (src tgt : List NormalizedIssue) (st : σ) :
    (syncCore ops n m src tgt st).result.targetToSourceChanges =
      (syncCore ops n m src tgt st).rawChanges.filter
        fun c => decide (c.source = m) := rfl

theorem syncCore_state (ops : ProviderOps σ) (n m : String)
    (src tgt : List NormalizedIssue) (st : σ) :
    (syncCore ops n m src tgt st).state =
      (runTargetLoop ops n m src tgt (runSourceLoop ops n tgt src st).2).2 := rfl

theorem syncCore_changes_source (ops : ProviderOps σ) (n m : String)
    (src tgt : List NormalizedIssue) (st : σ) :
    ∀ c ∈ (syncCore ops n m src tgt st).rawChanges,
      c.source = n ∨ c.source = m := by
  rw [syncCore_rawChanges]
  intro c hc
  rcases List.mem_append.mp hc with h | h
  · exact Or.inl (runSourceLoop_changes_source _ _ _ _ _ c h)
  · exact runTargetLoop_changes_source _ _ _ _ _ _ c h

/-- C4: a fetched target issue whose link metadata names the source provider
but whose external id does not resolve to any fetched source issue receives an
`updateIssue` call transitioning it to category Done with the display name
"Cancelled", and no `deleteIssue` call is ever performed during the run. -/
theorem orphaned_target_cancelled_never_deleted (ops : ProviderOps σ)
    (n m : String) (src tgt : List NormalizedIssue) (st : σ) (t : NormalizedIssue)
    (ht : t ∈ tgt) (hp : metaProvider t = some n)
    (hx : ∀ s ∈ src, some s.id ≠ metaExternalId t) :
    ProviderCall.updateTarget t.id cancelUpdateData ∈
        (syncCore ops n m src tgt st).calls ∧
      cancelUpdateData.state = some ⟨.done, "Cancelled", none⟩ ∧
      ∀ c ∈ (syncCore ops n m src tgt st).calls, c.isDelete = false := by
  have hx' : (src.any fun s => decide (some s.id = metaExternalId t)) = false := by
    simp only [List.any_eq_false, decide_eq_true_eq]
    exact hx
  refine ⟨?_, rfl, ?_⟩
  · rw [syncCore_calls]
    exact List.mem_append_right _
      (runTargetLoop_cancel_mem ops n m src tgt _ t ht hp hx')
  · rw [syncCore_calls]
    intro c hc
    rcases List.mem_append.mp hc with h | h
    · exact runSourceLoop_no_delete _ _ _ _ _ c h
    · exact runTargetLoop_no_delete _ _ _ _ _ _ c h

/-- C6: a source issue matching no fetched target issue (neither by external
id nor by identical title and description) triggers exactly one `createIssue`
call on the target provider, whose link metadata carries the source issue's
id and the source provider's name. -/
theorem unmatched_source_created_exactly_once (ops : ProviderOps σ) (n m : String)
    (pre post tgt : List NormalizedIssue) (s : NormalizedIssue) (st : σ)
    (hm : ∀ t ∈ tgt, isMatchingTarget n s t = false)
    (hid : ∀ x ∈ pre ++ post, x.id ≠ s.id) :
    (syncCore ops n m (pre ++ s :: post) tgt st).calls.filter
        (isCreateTargetFor s.id) = [.createTarget (sourceCreateData n s)] ∧
      (sourceCreateData n s).metadata = ⟨some s.id, some n⟩ := by
  refine ⟨?_, rfl⟩
  rw [syncCore_calls, List.filter_append, runTargetLoop_filter_createTarget,
    List.append_nil, runSourceLoop_append]
  simp only [StepOut.app_calls, List.filter_append]
  rw [runSourceLoop_filter_other ops n tgt pre st s.id
    (fun x hx => hid x (List.mem_append_left _ hx))]
  rw [runSourceLoop_cons]
  simp only [StepOut.app_calls, List.filter_append]
  rw [processSourceIssue_filter_self ops n tgt s _ hm]
  rw [runSourceLoop_filter_other ops n tgt post _ s.id
    (fun x hx => hid x (List.mem_append_right _ hx))]
  simp

/-- C10: in every returned `SyncResult` each source-to-target change names the
source provider, each target-to-source change names the target provider, and
the two lists together are a permutation of all changes recorded during the
run. -/
theorem sync_result_partitions_changes (ops : ProviderOps σ) (n m : String)
    (src tgt : List NormalizedIssue) (st : σ) (hnm : n ≠ m) :
    (∀ c ∈ (syncCore ops n m src tgt st).result.sourceToTargetChanges,
        c.source = n) ∧
    (∀ c ∈ (syncCore ops n m src tgt st).result.targetToSourceChanges,
        c.source = m) ∧
    ((syncCore ops n m src tgt st).result.sourceToTargetChanges ++
        (syncCore ops n m src tgt st).result.targetToSourceChanges).Perm
      (syncCore ops n m src tgt st).rawChanges := by
  refine ⟨?_, ?_, ?_⟩
  · rw [syncCore_s2t]
    intro c hc
    simpa using (List.mem_filter.mp hc).2
  · rw [syncCore_t2s]
    intro c hc
    simpa using (List.mem_filter.mp hc).2
  · rw [syncCore_s2t, syncCore_t2s]
    have hcong :
        (syncCore ops n m src tgt st).rawChanges.filter
            (fun c => decide (c.source = m)) =
          (syncCore ops n m src tgt st).rawChanges.filter
            (fun c => !(decide (c.source = n))) := by
      apply List.filter_congr
      intro c hc
      rcases syncCore_changes_source ops n m src tgt st c hc with h | h
      · simp [h, hnm]
      · simp [h, Ne.symm hnm]
    rw [hcong]
    exact List.filter_append_perm _ _

/-- C5: a provider fetch that throws the rate-limit error once and then
succeeds is retried exactly once: `sync` completes with that `getIssues`
invoked exactly twice and, when the mutation operations do not throw, an
empty `errors` list; a fetch error with any other message is not retried and
propagates after a single invocation. -/
theorem rate_limited_fetch_retried_once (ops : ProviderOps σ) (n m : String)
    (sf tf sg : Nat → Except SyncError (List NormalizedIssue)) (st : σ)
    (e e' : SyncError) (srcIssues tgtIssues : List NormalizedIssue)
    (hnf : ops.NoFail) :
    (sf 0 = .error e → e.message = rateLimitMessage → sf 1 = .ok srcIssues →
      tf 0 = .ok tgtIssues →
      syncWithFetch ops n m sf tf st =
          (.ok (syncCore ops n m srcIssues tgtIssues st), 2, 1) ∧
        (syncCore ops n m srcIssues tgtIssues st).result.errors = []) ∧
    (sg 0 = .error e' → e'.message ≠ rateLimitMessage →
      syncWithFetch ops n m sg tf st = (.error e', 1, 0)) := by
  constructor
  · intro h0 hmsg h1 ht0
    constructor
    · simp [syncWithFetch, fetchWithRetry, h0, h1, ht0, hmsg]
    · rw [syncCore_errors, runSourceLoop_errors_nofail _ _ _ _ _ hnf,
        runTargetLoop_errors_nofail _ _ _ _ _ _ hnf]
      rfl
  · intro h0 hmsg
    simp [syncWithFetch, fetchWithRetry, h0, hmsg]

/-- C9: an error thrown by `createIssue` or `updateIssue` while one source
(respectively target) issue is processed is recorded in `errors`, only that
issue's unit of work is abandoned (it contributes no change and no conflict),
and every other issue's processing output is exactly what it is in
isolation; the run still returns a `SyncResult`. -/
theorem mutation_error_is_isolated (ops : ProviderOps Unit) (n m : String) :
    (∀ pre post tgt i cs e,
      processSourceIssue ops n tgt i () = (⟨cs, [], [], [e]⟩, ()) →
      (syncCore ops n m (pre ++ i :: post) tgt ()).rawChanges =
          (runSourceLoop ops n tgt pre ()).1.changes ++
          ((runSourceLoop ops n tgt post ()).1.changes ++
           (runTargetLoop ops n m (pre ++ i :: post) tgt ()).1.changes) ∧
      (syncCore ops n m (pre ++ i :: post) tgt ()).result.conflicts =
          (runSourceLoop ops n tgt pre ()).1.conflicts ++
          ((runSourceLoop ops n tgt post ()).1.conflicts ++
           (runTargetLoop ops n m (pre ++ i :: post) tgt ()).1.conflicts) ∧
      (syncCore ops n m (pre ++ i :: post) tgt ()).result.errors =
          (runSourceLoop ops n tgt pre ()).1.errors ++ e ::
          ((runSourceLoop ops n tgt post ()).1.errors ++
           (runTargetLoop ops n m (pre ++ i :: post) tgt ()).1.errors) ∧
      e ∈ (syncCore ops n m (pre ++ i :: post) tgt ()).result.errors) ∧
    (∀ src pre post t cs e,
      processTargetIssue ops n m src t () = (⟨cs, [], [], [e]⟩, ()) →
      (syncCore ops n m src (pre ++ t :: post) ()).rawChanges =
          (runSourceLoop ops n (pre ++ t :: post) src ()).1.changes ++
          ((runTargetLoop ops n m src pre ()).1.changes ++
           (runTargetLoop ops n m src post ()).1.changes) ∧
      (syncCore ops n m src (pre ++ t :: post) ()).result.conflicts =
          (runSourceLoop ops n (pre ++ t :: post) src ()).1.conflicts ++
          ((runTargetLoop ops n m src pre ()).1.conflicts ++
           (runTargetLoop ops n m src post ()).1.conflicts) ∧
      (syncCore ops n m src (pre ++ t :: post) ()).result.errors =
          (runSourceLoop ops n (pre ++ t :: post) src ()).1.errors ++
          ((runTargetLoop ops n m src pre ()).1.errors ++ e ::
           (runTargetLoop ops n m src post ()).1.errors) ∧
      e ∈ (syncCore ops n m src (pre ++ t :: post) ()).result.errors) := by
  constructor
  · intro pre post tgt i cs e hstep
    have hpre : (runSourceLoop ops n tgt pre ()).2 = () := rfl
    have hall : (runSourceLoop ops n tgt (pre ++ i :: post) ()).2 = () := rfl
    have hch :
        (runSourceLoop ops n tgt (pre ++ i :: post) ()).1 =
          (runSourceLoop ops n tgt pre ()).1.app
            ((⟨cs, [], [], [e]⟩ : StepOut).app
              (runSourceLoop ops n tgt post ()).1) := by
      rw [runSourceLoop_append, runSourceLoop_cons]
      simp only [hpre, hstep]
    refine ⟨?_, ?_, ?_, ?_⟩
    · rw [syncCore_rawChanges, hall, hch]
      simp
    · rw [syncCore_conflicts, hall, hch]
      simp
    · rw [syncCore_errors, hall, hch]
      simp
    · rw [syncCore_errors, hall, hch]
      simp
  · intro src pre post t cs e hstep
    have hsrc : (runSourceLoop ops n (pre ++ t :: post) src ()).2 = () := rfl
    have hpre : (runTargetLoop ops n m src pre ()).2 = () := rfl
    have hch :
        (runTargetLoop ops n m src (pre ++ t :: post) ()).1 =
          (runTargetLoop ops n m src pre ()).1.app
            ((⟨cs, [], [], [e]⟩ : StepOut).app
              (runTargetLoop ops n m src post ()).1) := by
      rw [runTargetLoop_append, runTargetLoop_cons]
      simp only [hpre, hstep]
    refine ⟨?_, ?_, ?_, ?_⟩
    · rw [syncCore_rawChanges, hsrc, hch]
      simp
    · rw [syncCore_conflicts, hsrc, hch]
      simp
    · rw [syncCore_errors, hsrc, hch]
      simp
    · rw [syncCore_errors, hsrc, hch]
      simp

theorem runOnce_def (n m : String) (w : World) :
    runOnce n m w =
      syncCore (worldOps n m) n m w.sourceIssues w.targetIssues w := rfl

/-- C1 (amended): consecutive `sync` runs are idempotent from a clean fixed
point: when a run over the modelled backends reports no changes, no conflicts
and no errors, it performed no mutation, so the next run fetches the same
state and again returns empty change lists and no conflicts.  (A run that
reports conflicts or orphan cancellations repeats them, see the
counterexample.) -/
theorem second_sync_empty_after_clean_run (n m : String) (w : World)
    (h1 : (runOnce n m w).result.sourceToTargetChanges = [])
    (h2 : (runOnce n m w).result.targetToSourceChanges = [])
    (h3 : (runOnce n m w).result.conflicts = [])
    (h4 : (runOnce n m w).result.errors = []) :
    (runOnce n m (runOnce n m w).state).result.sourceToTargetChanges = [] ∧
    (runOnce n m (runOnce n m w).state).result.targetToSourceChanges = [] ∧
    (runOnce n m (runOnce n m w).state).result.conflicts = [] := by
  have hraw : (runOnce n m w).rawChanges = [] := by
    rw [List.eq_nil_iff_forall_not_mem]
    intro c hc
    rcases syncCore_changes_source (worldOps n m) n m w.sourceIssues
        w.targetIssues w c hc with h | h
    · have hin : c ∈ (runOnce n m w).result.sourceToTargetChanges := by
        rw [runOnce_def, syncCore_s2t]
        exact List.mem_filter.mpr ⟨hc, by simp [h]⟩
      rw [h1] at hin
      cases hin
    · have hin : c ∈ (runOnce n m w).result.targetToSourceChanges := by
        rw [runOnce_def, syncCore_t2s]
        exact List.mem_filter.mpr ⟨hc, by simp [h]⟩
      rw [h2] at hin
      cases hin
  have hstate : (runOnce n m w).state = w := by
    have herr := h4
    rw [runOnce_def, syncCore_rawChanges, List.append_eq_nil] at hraw
    rw [runOnce_def, syncCore_errors, List.append_eq_nil] at herr
    rw [runOnce_def, syncCore_state]
    rw [runTargetLoop_silent_state _ _ _ _ _ _ hraw.2 herr.2]
    exact runSourceLoop_silent_state _ _ _ _ _ hraw.1 herr.1
  rw [hstate]
  exact ⟨h1, h2, h3⟩

/-- Counterexample to C1 as stated: on `exWorld` (one conflicting linked pair
and one orphaned target, nothing mutated externally) the second `sync` run
again reports the conflict and again cancels the orphan, so its `conflicts`
and `targetToSourceChanges` are not empty. -/
theorem second_sync_not_empty_on_exWorld :
    (runOnce "github" "plane"
        (runOnce "github" "plane" exWorld).state).result.conflicts ≠ [] ∧
    (runOnce "github" "plane"
        (runOnce "github" "plane" exWorld).state).result.targetToSourceChanges ≠
      [] := by
  decide

theorem labelsDiffer_self (a : List NormalizedLabel) : labelsDiffer a a = false := by
  simp [labelsDiffer, List.all_eq_true]

theorem runSourceLoop_singleton (ops : ProviderOps σ) (n : String)
    (tgts : List NormalizedIssue) (s : NormalizedIssue) (st : σ) :
    runSourceLoop ops n tgts [s] st = processSourceIssue ops n tgts s st := by
  rw [runSourceLoop_cons]
  simp

theorem runTargetLoop_singleton (ops : ProviderOps σ) (n m : String)
    (src : List NormalizedIssue) (t : NormalizedIssue) (st : σ) :
    runTargetLoop ops n m src [t] st = processTargetIssue ops n m src t st := by
  rw [runTargetLoop_cons]
  simp

/-- C2 (amended): for a fully linked pair (the target carries both the source
issue's id as `externalId` and the source provider's name as `provider`) with
equal timestamps whose titles differ while description, state and labels
agree, `sync` reports exactly one conflict naming exactly the field `title`
with both raw title values, performs no provider call, and leaves the backend
state untouched.  (Without the `provider` entry the target-to-source loop
still mutates the pair, see the counterexample.) -/
theorem linked_tied_title_conflict_only_reported (ops : ProviderOps σ)
    (n m : String) (s t : NormalizedIssue) (st : σ)
    (hext : metaExternalId t = some s.id)
    (hprov : metaProvider t = some n)
    (htime : s.updatedAt = t.updatedAt)
    (htitle : s.title ≠ t.title)
    (hdesc : s.description = t.description)
    (hstate : s.state = t.state)
    (hlabels : s.labels = t.labels) :
    (syncCore ops n m [s] [t] st).result.conflicts =
        [⟨s, t, "", [⟨"title", .str s.title, .str t.title⟩]⟩] ∧
      (syncCore ops n m [s] [t] st).calls = [] ∧
      (syncCore ops n m [s] [t] st).result.sourceToTargetChanges = [] ∧
      (syncCore ops n m [s] [t] st).result.targetToSourceChanges = [] ∧
      (syncCore ops n m [s] [t] st).state = st := by
  have hcf : getConflictingFields s t = ["title"] := by
    unfold getConflictingFields
    simp [List.filter_cons, getFieldVal, htitle, hdesc, hstate, hlabels,
      labelsDiffer_self]
  have hfind : findMatchingTarget n [t] s = some t := by
    simp [findMatchingTarget, List.find?, isMatchingTarget, hext]
  have hstep : processSourceIssue ops n [t] s st =
      (⟨[], [], [mkConflict s t (getConflictingFields s t)], []⟩, st) := by
    refine processSourceIssue_cases ops n [t] s st
      (fun r => r = (⟨[], [], [mkConflict s t (getConflictingFields s t)], []⟩, st))
      ?_ ?_ ?_ ?_ ?_ ?_
    · intro t' hf _ _
      rw [hfind] at hf
      cases hf
      rfl
    · intro t' v st' hf hgt _
      rw [hfind] at hf
      cases hf
      exact absurd htime (by omega)
    · intro t' e st' hf hgt _
      rw [hfind] at hf
      cases hf
      exact absurd htime (by omega)
    · intro t' hf hcon _
      rw [hfind] at hf
      cases hf
      exact absurd ⟨htime, by rw [hcf]; simp⟩ hcon
    · intro v st' hf _
      rw [hfind] at hf
      cases hf
    · intro e st' hf _
      rw [hfind] at hf
      cases hf
  have hany : ([s].any fun x => decide (some x.id = metaExternalId t)) = true := by
    simp [hext]
  have htstep : processTargetIssue ops n m [s] t st = (StepOut.empty, st) := by
    refine processTargetIssue_cases ops n m [s] t st
      (fun r => r = (StepOut.empty, st)) ?_ ?_ ?_ ?_ ?_ ?_
    · intro _ _
      rfl
    · intro v st' _ ha _
      rw [hany] at ha
      cases ha
    · intro e st' _ ha _
      rw [hany] at ha
      cases ha
    · intro created st' v st'' hp _ _
      exact absurd hprov hp
    · intro created st' e st'' hp _ _
      exact absurd hprov hp
    · intro e st' hp _
      exact absurd hprov hp
  have hA : runSourceLoop ops n [t] [s] st =
      (⟨[], [], [mkConflict s t (getConflictingFields s t)], []⟩, st) := by
    rw [runSourceLoop_singleton, hstep]
  have hB : runTargetLoop ops n m [s] [t] (runSourceLoop ops n [t] [s] st).2 =
      (StepOut.empty, st) := by
    rw [hA]
    rw [runTargetLoop_singleton, htstep]
  refine ⟨?_, ?_, ?_, ?_, ?_⟩
  · rw [syncCore_conflicts, hB, hA]
    simp [mkConflict, hcf, getFieldVal]
  · rw [syncCore_calls, hB, hA]
    rfl
  · rw [syncCore_s2t, syncCore_rawChanges, hB, hA]
    rfl
  · rw [syncCore_t2s, syncCore_rawChanges, hB, hA]
    rfl
  · rw [syncCore_state, hB]

/-- Counterexample to C2 as stated: `exTargetNoProv` is linked to `exSource`
by `externalId` alone (no `provider` entry) with equal timestamps and
differing titles; `sync` reports the single title conflict but still performs
a `createIssue` on the source provider and an `updateIssue` on the target for
that pair. -/
theorem linked_pair_without_provider_entry_mutated :
    (syncCore okOps "github" "plane" [exSource] [exTargetNoProv] ()).result.conflicts.length = 1 ∧
      (syncCore okOps "github" "plane" [exSource] [exTargetNoProv] ()).calls =
        [.createSource (targetCreateData "plane" exTargetNoProv),
         .updateTarget exTargetNoProv.id (backfillData "github" "created-0")] := by
  decide

/-- C7 (amended): the matcher scans the fetched target list in order and
links the first target satisfying the id-or-content disjunction — a target is
linked when it matches and no earlier target matches, regardless of whether
an earlier match is by content and already carries a different `externalId`;
link metadata is backfilled on update exactly when the matched target's
`externalId` is missing or empty. -/
theorem matcher_first_match_and_conditional_backfill (ops : ProviderOps σ)
    (n : String) :
    (∀ s t pre post,
      (∀ u ∈ pre, isMatchingTarget n s u = false) →
      isMatchingTarget n s t = true →
      findMatchingTarget n (pre ++ t :: post) s = some t) ∧
    (∀ tgts s t (st : σ),
      findMatchingTarget n tgts s = some t →
      s.updatedAt > t.updatedAt →
      (processSourceIssue ops n tgts s st).1.calls =
          [.updateTarget t.id (sourceUpdateData n s t)] ∧
        (sourceUpdateData n s t).metadata =
          (if jsFalsy (metaExternalId t) then some ⟨some s.id, some n⟩
           else none)) := by
  constructor
  · intro s t pre post hpre ht
    unfold findMatchingTarget
    induction pre with
    | nil => exact List.find?_cons_of_pos _ ht
    | cons u rest ih =>
      rw [List.cons_append, List.find?_cons_of_neg]
      · exact ih fun x hx => hpre x (List.mem_cons_of_mem u hx)
      · simp [hpre u (List.mem_cons_self u rest)]
  · intro tgts s t st hf hgt
    refine processSourceIssue_cases ops n tgts s st
      (fun r => r.1.calls = [.updateTarget t.id (sourceUpdateData n s t)] ∧
        (sourceUpdateData n s t).metadata =
          (if jsFalsy (metaExternalId t) then some ⟨some s.id, some n⟩
           else none)) ?_ ?_ ?_ ?_ ?_ ?_
    · intro t' hf' heq _
      rw [hf] at hf'
      cases hf'
      exact absurd heq (by omega)
    · intro t' v st' hf' _ _
      rw [hf] at hf'
      cases hf'
      exact ⟨rfl, rfl⟩
    · intro t' e st' hf' _ _
      rw [hf] at hf'
      cases hf'
      exact ⟨rfl, rfl⟩
    · intro t' hf' _ hngt
      rw [hf] at hf'
      cases hf'
      exact absurd hgt hngt
    · intro v st' hf' _
      rw [hf] at hf'
      cases hf'
    · intro e st' hf' _
      rw [hf] at hf'
      cases hf'

/-- Counterexample to C7 as stated: `exLinkedTarget` carries
`metadata.externalId = exMatchSource.id`, but the matcher links
`exContentTarget`, an earlier content match that already carries a different
`externalId` — linkage metadata does not take precedence and the content
fallback is not restricted to targets without an `externalId`. -/
theorem content_match_beats_link_metadata :
    findMatchingTarget "github" [exContentTarget, exLinkedTarget] exMatchSource =
        some exContentTarget ∧
      metaExternalId exLinkedTarget = some exMatchSource.id ∧
      metaExternalId exContentTarget ≠ some exMatchSource.id := by
  decide

/-- C3 (amended): the detector used by `sync` draws its field names from the
ordered list [title, description, state, labels] only — assignees are never
compared and `state` is reported iff the display names differ (categories are
ignored); title and description use strict equality and labels the
case-insensitive set test.  The auxiliary `NormalizedIssueUtils.compare`
additionally reports `assignees` and compares `state` by category, but it
compares assignees case-sensitively. -/
theorem conflict_detector_field_semantics (a b : NormalizedIssue) :
    getConflictingFields a b =
        (if a.title = b.title then [] else ["title"]) ++
        (if a.description = b.description then [] else ["description"]) ++
        (if a.state.name = b.state.name then [] else ["state"]) ++
        (if labelsDiffer a.labels b.labels then ["labels"] else []) ∧
      "assignees" ∉ getConflictingFields a b ∧
      (compareIssues a b).conflicts.map ConflictField.field =
        (if a.title = b.title then [] else ["title"]) ++
        (if a.description = b.description then [] else ["description"]) ++
        (if a.state.category = b.state.category then [] else ["state"]) ++
        (if labelsDiffer a.labels b.labels then ["labels"] else []) ++
        (if assigneesDiffer a.assignees b.assignees then ["assignees"] else []) := by
  have h1 : getConflictingFields a b =
      (if a.title = b.title then [] else ["title"]) ++
      (if a.description = b.description then [] else ["description"]) ++
      (if a.state.name = b.state.name then [] else ["state"]) ++
      (if labelsDiffer a.labels b.labels then ["labels"] else []) := by
    by_cases ht : a.title = b.title <;>
      by_cases hd : a.description = b.description <;>
      by_cases hs : a.state.name = b.state.name <;>
      by_cases hl : labelsDiffer a.labels b.labels <;>
      simp [getConflictingFields, List.filter_cons, getFieldVal, ht, hd, hs, hl]
  refine ⟨h1, ?_, ?_⟩
  · rw [h1]
    split_ifs <;> simp
  · by_cases ht : a.title = b.title <;>
      by_cases hd : a.description = b.description <;>
      by_cases hs : a.state.category = b.state.category <;>
      by_cases hl : labelsDiffer a.labels b.labels <;>
      by_cases ha : assigneesDiffer a.assignees b.assignees <;>
      simp [compareIssues, compareFieldEntry, getFieldVal, ht, hd, hs, hl, ha]

/-- Counterexample to C3 as stated: `exCmpA` and `exCmpB` share the state
category under different display names and have assignees equal up to case;
the engine's detector reports exactly ["state"] although the categories
agree, and `NormalizedIssueUtils.compare` reports exactly ["assignees"]
although the assignee sets are case-insensitively equal. -/
theorem conflict_detector_deviates_on_example :
    getConflictingFields exCmpA exCmpB = ["state"] ∧
      (compareIssues exCmpA exCmpB).conflicts.map ConflictField.field =
        ["assignees"] := by
  decide

/-- C8: observed behaviour on the failing input — when the linked source
issue is newer and its state has the same category as the target's current
state but a different display name, the engine's `updateIssue` call still
carries the source's state object, overwriting the target's equivalent state
instead of leaving it unchanged. -/
theorem newer_source_overwrites_equivalent_state :
    exFlapTarget.state.category = exFlapSource.state.category ∧
      exFlapTarget.state.name ≠ exFlapSource.state.name ∧
      (syncCore okOps "github" "plane" [exFlapSource] [exFlapTarget] ()).calls =
        [.updateTarget exFlapTarget.id
          (sourceUpdateData "github" exFlapSource exFlapTarget)] ∧
      (sourceUpdateData "github" exFlapSource exFlapTarget).state =
        some exFlapSource.state := by
  decide

theorem okOps_noFail : okOps.NoFail :=
  ⟨fun _ _ => ⟨_, _, rfl⟩, fun _ _ _ => ⟨_, _, rfl⟩,
   fun _ _ => ⟨_, _, rfl⟩, fun _ _ _ => ⟨_, _, rfl⟩⟩

/-- Witness for the amended idempotence theorem at the empty backend world. -/
theorem second_sync_empty_after_clean_run_witness :
    (runOnce "github" "plane" (runOnce "github" "plane" ⟨[], [], 0, 0⟩).state).result.sourceToTargetChanges = [] ∧
    (runOnce "github" "plane" (runOnce "github" "plane" ⟨[], [], 0, 0⟩).state).result.targetToSourceChanges = [] ∧
    (runOnce "github" "plane" (runOnce "github" "plane" ⟨[], [], 0, 0⟩).state).result.conflicts = [] :=
  second_sync_empty_after_clean_run "github" "plane" ⟨[], [], 0, 0⟩ rfl rfl rfl rfl

/-- Witness for the amended conflict-surfacing theorem on the concrete fully
linked pair. -/
theorem linked_tied_title_conflict_only_reported_witness :
    (syncCore okOps "github" "plane" [exSource] [exTargetLinked] ()).result.conflicts =
        [⟨exSource, exTargetLinked, "",
          [⟨"title", .str exSource.title, .str exTargetLinked.title⟩]⟩] ∧
      (syncCore okOps "github" "plane" [exSource] [exTargetLinked] ()).calls = [] ∧
      (syncCore okOps "github" "plane" [exSource] [exTargetLinked] ()).result.sourceToTargetChanges = [] ∧
      (syncCore okOps "github" "plane" [exSource] [exTargetLinked] ()).result.targetToSourceChanges = [] ∧
      (syncCore okOps "github" "plane" [exSource] [exTargetLinked] ()).state = () :=
  linked_tied_title_conflict_only_reported okOps "github" "plane" exSource
    exTargetLinked () (by decide) (by decide) (by decide) (by decide) (by decide)
    (by decide) (by decide)

/-- Witness for the orphan-cancellation theorem on the concrete orphaned
target. -/
theorem orphaned_target_cancelled_never_deleted_witness :
    ProviderCall.updateTarget exOrphanTarget.id cancelUpdateData ∈
        (syncCore okOps "github" "plane" [exSource] [exOrphanTarget] ()).calls ∧
      cancelUpdateData.state = some ⟨.done, "Cancelled", none⟩ ∧
      ∀ c ∈ (syncCore okOps "github" "plane" [exSource] [exOrphanTarget] ()).calls,
        c.isDelete = false :=
  orphaned_target_cancelled_never_deleted okOps "github" "plane" [exSource]
    [exOrphanTarget] () exOrphanTarget (by decide) (by decide) (by decide)

/-- Witness for the retry theorem: a fetch schedule that rate-limits once and
then succeeds. -/
theorem rate_limited_fetch_retried_once_witness :
    syncWithFetch okOps "github" "plane"
        (fun k => if k = 0 then .error ⟨rateLimitMessage⟩ else .ok [])
        (fun _ => .ok []) () =
        (.ok (syncCore okOps "github" "plane" [] [] ()), 2, 1) ∧
      (syncCore okOps "github" "plane" [] [] ()).result.errors = [] :=
  (rate_limited_fetch_retried_once okOps "github" "plane"
      (fun k => if k = 0 then .error ⟨rateLimitMessage⟩ else .ok [])
      (fun _ => .ok []) (fun _ => .ok []) () ⟨rateLimitMessage⟩
      ⟨rateLimitMessage⟩ [] [] okOps_noFail).1 rfl rfl rfl rfl

/-- Witness for the creation theorem: one source issue against an empty
target set. -/
theorem unmatched_source_created_exactly_once_witness :
    (syncCore okOps "github" "plane" ([] ++ exSource :: []) [] ()).calls.filter
        (isCreateTargetFor exSource.id) =
        [.createTarget (sourceCreateData "github" exSource)] ∧
      (sourceCreateData "github" exSource).metadata =
        ⟨some exSource.id, some "github"⟩ :=
  unmatched_source_created_exactly_once okOps "github" "plane" [] [] [] exSource ()
    (by decide) (by decide)

/-- Witness for the first-match theorem: a single id-linked target is
matched. -/
theorem matcher_first_match_and_conditional_backfill_witness :
    findMatchingTarget "github" ([] ++ exLinkedTarget :: []) exMatchSource =
      some exLinkedTarget :=
  (matcher_first_match_and_conditional_backfill okOps "github").1 exMatchSource
    exLinkedTarget [] [] (by decide) (by decide)

/-- Witness for the partial-failure theorem: a throwing `createIssue` leaves
its error in the returned `errors` list. -/
theorem mutation_error_is_isolated_witness :
    (⟨"boom"⟩ : SyncError) ∈
      (syncCore failOps "github" "plane" ([] ++ exSource :: []) [] ()).result.errors :=
  ((mutation_error_is_isolated failOps "github" "plane").1 [] [] [] exSource
    [.createTarget (sourceCreateData "github" exSource)] ⟨"boom"⟩
    (by decide)).2.2.2

/-- Witness for the partition theorem on a concrete run with distinct provider
names. -/
theorem sync_result_partitions_changes_witness :
    (∀ c ∈ (syncCore okOps "github" "plane" [exSource] [] ()).result.sourceToTargetChanges, c.source = "github") ∧
      (∀ c ∈ (syncCore okOps "github" "plane" [exSource] [] ()).result.targetToSourceChanges, c.source = "plane") ∧
      ((syncCore okOps "github" "plane" [exSource] [] ()).result.sourceToTargetChanges ++
        (syncCore okOps "github" "plane" [exSource] [] ()).result.targetToSourceChanges).Perm
        (syncCore okOps "github" "plane" [exSource] [] ()).rawChanges :=
  sync_result_partitions_changes okOps "github" "plane" [exSource] [] ()
    (by decide)

end PlaneSync

